import Mathlib

/-!
Shallow embedding of the DNS-Scanner scan-and-probe pipeline: registry
table parsing, deduplication, fallback link extraction, reachability
probing, and scan orchestration, translated from the repository source.
-/

namespace DScan

/-- Substring occurrence test on character lists: the needle occurs as a
contiguous infix of the haystack. -/
def containsSubAux (needle : List Char) : List Char → Bool
  | [] => needle.isEmpty
  | c :: cs => needle.isPrefixOf (c :: cs) || containsSubAux needle cs

/-- Models the JavaScript string method includes. -/
def containsSub (hay needle : String) : Bool :=
  containsSubAux needle.toList hay.toList

/-- ASCII lower-casing of one character, as toLowerCase does on ASCII. -/
def lowerChar (c : Char) : Char :=
  if 'A' ≤ c ∧ c ≤ 'Z' then Char.ofNat (c.toNat + 32) else c

/-- Models the JavaScript string method toLowerCase on ASCII input. -/
def toLowerStr (s : String) : String :=
  ⟨s.toList.map lowerChar⟩

/-- Models the JavaScript string method trim. -/
def jsTrim (s : String) : String :=
  ⟨((s.toList.dropWhile Char.isWhitespace).reverse.dropWhile Char.isWhitespace).reverse⟩

/-- One DomainEntry record, as in shared/schema and built in registerRoutes. -/
structure DomainEntry where
  domain : String
  status : String
  owner : String
  age : String
  hosts : Nat
  websiteStatus : String
  websiteError : Option String
deriving Repr, DecidableEq

/-- One table cell as consumed by the parser: the texts of its anchor
elements in order, the concatenated text of its span elements when any
span is present, and its full text. -/
structure Cell where
  linkTexts : List String
  spanText : Option String
  text : String
deriving Repr, DecidableEq

/-- One table row: its class attribute and its cells. -/
structure Row where
  cls : String
  cells : List Cell
deriving Repr, DecidableEq

/-- One fetched page as consumed by the route: its registry table rows and
the texts of all hyperlinks on the page. -/
structure Markup where
  rows : List Row
  links : List String
deriving Repr, DecidableEq

def defaultCell : Cell := ⟨[], none, ""⟩

/-- Decimal value of a digit list, as parseInt computes on a digit string. -/
def digitsVal (ds : List Char) : Nat :=
  ds.foldl (fun a c => a * 10 + (c.toNat - 48)) 0

/-- Whitespace class of the regular expression escape backslash-s. -/
def jsSpace (c : Char) : Bool :=
  c = ' ' || c = '\t' || c = '\n' || c = '\r' || c.toNat = 11 || c.toNat = 12

/-- Attempt to match the host-count pattern at the head of the character
list: an opening parenthesis, one or more digits, one or more whitespace
characters, then the literal text hosts in use followed by the closing
parenthesis. Returns the captured integer on success. -/
def matchHostAt : List Char → Option Nat
  | '(' :: rest =>
    let ds := rest.takeWhile Char.isDigit
    if ds.isEmpty then none
    else
      let r2 := rest.dropWhile Char.isDigit
      let ws := r2.takeWhile jsSpace
      if ws.isEmpty then none
      else
        let r3 := r2.dropWhile jsSpace
        if ("hosts in use)".toList).isPrefixOf r3 then some (digitsVal ds) else none
  | _ => none

/-- First match of the host-count pattern anywhere in the list, scanning
left to right, as the match method of JavaScript strings does. -/
def scanHost : List Char → Option Nat
  | [] => none
  | c :: cs =>
    match matchHostAt (c :: cs) with
    | some k => some k
    | none => scanHost cs

/-- Models hostText.match with the host-count regular expression plus
parseInt on the captured digits. -/
def hostMatch (s : String) : Option Nat :=
  scanHost s.toList

/-- Field extraction for one row with at least 4 cells, mirroring the body
of the row callback in registerRoutes. -/
def extractRow (row : Row) : DomainEntry :=
  let c0 := row.cells.getD 0 defaultCell
  let domainName := jsTrim (c0.linkTexts.headD "")
  let hostCount :=
    match c0.spanText with
    | some t => (hostMatch t).getD 0
    | none => 0
  let status := jsTrim (row.cells.getD 1 defaultCell).text
  let c2 := row.cells.getD 2 defaultCell
  let ownerLink := jsTrim (String.join c2.linkTexts)
  let owner := if ownerLink = "" then jsTrim c2.text else ownerLink
  let age := jsTrim (row.cells.getD 3 defaultCell).text
  ⟨domainName, status, owner, age, hostCount, "unchecked", none⟩

/-- Parsing of one row: a record is produced only when the row has at
least 4 cells and both the trimmed domain name and the trimmed status are
non-empty; otherwise the row is skipped. -/
def parseRow (row : Row) : Option DomainEntry :=
  if 4 ≤ row.cells.length then
    let e := extractRow row
    if e.domain ≠ "" ∧ e.status ≠ "" then some e else none
  else none

/-- Row selection: the selector picks rows of the two known row classes. -/
def selectRows (rows : List Row) : List Row :=
  rows.filter (fun r => r.cls == "trl" || r.cls == "trd")

/-- The records constructed from one page, in row order. -/
def parsePage (rows : List Row) : List DomainEntry :=
  (selectRows rows).filterMap parseRow

/-- A row of the known classes qualifying for a record: at least 4 cells,
non-empty trimmed domain name, non-empty trimmed status. -/
def wellFormedRow (row : Row) : Bool :=
  decide (4 ≤ row.cells.length) &&
  decide ((extractRow row).domain ≠ "") &&
  decide ((extractRow row).status ≠ "")

/-- The duplicate check of registerRoutes: a record is appended only when
no record with the same domain is already in the collection. -/
def mergeEntry (acc : List DomainEntry) (e : DomainEntry) : List DomainEntry :=
  if acc.any (fun x => x.domain == e.domain) then acc else acc ++ [e]

/-- Processing one page: parse its rows and merge each produced record
into the accumulated global collection in order. -/
def processPage (acc : List DomainEntry) (rows : List Row) : List DomainEntry :=
  (parsePage rows).foldl mergeEntry acc

/-- The domain names of a record collection, in order. -/
def entryDomains (l : List DomainEntry) : List String :=
  l.map (fun e => e.domain)

/-- Character class of the fallback hostname pattern body. -/
def classChar (c : Char) : Bool :=
  c.isAlphanum || c = '.' || c = '-'

/-- The fallback hostname test: one or more characters of the class
letters, digits, dot, hyphen, then a dot, then at least two letters,
anchored at both ends. -/
def hostPattern (s : String) : Bool :=
  let cs := s.toList
  (List.range cs.length).any (fun i =>
    decide (1 ≤ i) && (cs.take i).all classChar &&
    (match cs.drop i with
     | '.' :: tail => tail.all Char.isAlpha && decide (2 ≤ tail.length)
     | _ => false))

/-- The link collection test of the fallback: non-empty trimmed text that
contains a dot, contains no space, and matches the hostname pattern. -/
def linkCandidate (s : String) : Bool :=
  !(s == "") && containsSub s "." && !(containsSub s " ") && hostPattern s

/-- Models Array.from on a Set built from a list: duplicates removed,
first occurrence kept, order preserved. -/
def jsSetDedup (l : List String) : List String :=
  l.foldl (fun acc s => if acc.contains s then acc else acc ++ [s]) []

/-- Strips a leading www. prefix, as the local reassignment in the
fallback filter does. -/
def stripWww (s : String) : String :=
  if ("www.".toList).isPrefixOf s.toList then ⟨s.toList.drop 4⟩ else s

/-- The fallback filter predicate over deduplicated candidate domains:
reject empty strings and strings containing the registry substrings, then
re-test the hostname pattern on the candidate with a leading www.
stripped. The stripping is local to the test and does not change the
element that the filter keeps. -/
def fallbackFilter (d : String) : Bool :=
  if d == "" then false
  else if containsSub d "freedns" || containsSub d "afraid" then false
  else hostPattern (stripWww d)

/-- The unique candidate domains of the fallback, from the raw link texts
of page 1. -/
def fallbackDomains (links : List String) : List String :=
  (jsSetDedup ((links.map jsTrim).filter linkCandidate)).filter fallbackFilter

/-- The record built for one fallback domain. -/
def mkUnknownEntry (d : String) : DomainEntry :=
  ⟨d, "unknown", "unknown", "unknown", 0, "unchecked", none⟩

/-- The records appended by the fallback. -/
def fallbackEntries (links : List String) : List DomainEntry :=
  (fallbackDomains links).map mkUnknownEntry

/-- Outcome of one transport-level GET: either a transport failure, or a
response with a status code, an optional post-redirect response URL, and
a body. -/
inductive Outcome where
  | netError : Outcome
  | response (status : Nat) (responseUrl : Option String) (body : String) : Outcome
deriving Repr, DecidableEq

/-- Result of one probe: a classification string and an optional error. -/
structure ProbeResult where
  status : String
  error : Option String
deriving Repr, DecidableEq

/-- The signature substrings tested against the lower-cased final URL. -/
def urlSignatures : List String :=
  ["securly", "blocked", "filter", "websense", "lightspeed", "barracuda"]

/-- The signature substrings tested against the lower-cased body. -/
def bodySignatures : List String :=
  ["securly", "this site has been blocked", "access denied", "content filtered",
   "blocked by", "website blocked", "content filter", "websense", "lightspeed",
   "barracuda"]

/-- The combined filter-signature test of checkWebsiteStatus. -/
def sigMatch (finalUrlLower textLower : String) : Bool :=
  urlSignatures.any (fun s => containsSub finalUrlLower s) ||
  bodySignatures.any (fun s => containsSub textLower s)

/-- Classification of one accepted response, mirroring the body of the
inner loop of checkWebsiteStatus: the effective final URL is the response
URL when present, else the requested URL; the signature test runs first,
then the client-error status range, else the domain is working. -/
def classifyResponse (url : String) (st : Nat) (ru : Option String) (b : String) :
    ProbeResult :=
  let fin := toLowerStr (ru.getD url)
  let txt := toLowerStr b
  if sigMatch fin txt then
    ⟨"broken", some "Blocked by security filter (Securly/similar)"⟩
  else if 400 ≤ st ∧ st < 500 then
    ⟨"broken", some ("HTTP " ++ Nat.repr st)⟩
  else
    ⟨"working", none⟩

/-- One axios GET under the status validator of the prober: a transport
failure yields no response, and a received response is accepted exactly
when its status is below 500, else it is thrown. -/
def axiosProbeGet (t : String → Outcome) (url : String) :
    Option (Nat × Option String × String) :=
  match t url with
  | Outcome.netError => none
  | Outcome.response st ru b => if st < 500 then some (st, ru, b) else none

/-- The URL loop of checkWebsiteStatus: the first URL whose GET is
accepted is classified and returned; a thrown attempt moves on to the
next URL. -/
def tryUrls (t : String → Outcome) : List String → Option ProbeResult
  | [] => none
  | u :: rest =>
    match axiosProbeGet t u with
    | some (st, ru, b) => some (classifyResponse u st ru b)
    | none => tryUrls t rest

/-- The URLs on which a GET is issued by the loop: every URL up to and
including the first accepted one. -/
def attemptedUrls (t : String → Outcome) : List String → List String
  | [] => []
  | u :: rest =>
    match axiosProbeGet t u with
    | some _ => [u]
    | none => u :: attemptedUrls t rest

/-- The prober: attempt the plain scheme then the secure scheme; when
both attempts are exhausted without a determination the domain is broken
with the connection-failed error. -/
def checkWebsiteStatus (t : String → Outcome) (domain : String) : ProbeResult :=
  match tryUrls t ["http://" ++ domain, "https://" ++ domain] with
  | some r => r
  | none => ⟨"broken", some "Connection failed"⟩

/-- The top-level catch of the prober: an unexpected exception with the
given message classifies as broken, with the message defaulting to the
unknown-error text when it is empty. -/
def checkWebsiteStatusCatch (m : String) : ProbeResult :=
  ⟨"broken", some (if m = "" then "Unknown error" else m)⟩

/-- The probe fan-out of the orchestrator: every accumulated record gets
its reachability fields overwritten by its probe result. -/
def probeAll (t : String → Outcome) (entries : List DomainEntry) : List DomainEntry :=
  entries.map (fun e =>
    let r := checkWebsiteStatus t e.domain
    { e with websiteStatus := r.status,
             websiteError :=
               match r.error with
               | some m => some m
               | none => e.websiteError })

/-- The sequential page loop of the orchestrator: pages are fetched and
merged in order, and the first fetch failure aborts the whole loop with
that error. The third argument is the current page index and the fourth
the number of remaining pages. -/
def scanLoop (fetch : Nat → Except String Markup) :
    List DomainEntry → Nat → Nat → Except String (List DomainEntry)
  | acc, _, 0 => Except.ok acc
  | acc, page, n + 1 =>
    match fetch page with
    | Except.error e => Except.error e
    | Except.ok m => scanLoop fetch (processPage acc m.rows) (page + 1) n

/-- Scanning pages 1 up to the page count. -/
def scanPages (fetch : Nat → Except String Markup) (pages : Nat) :
    Except String (List DomainEntry) :=
  scanLoop fetch [] 1 pages

/-- The orchestrator body: scan all pages, probe every accumulated
record, and only then, when the collection is still empty, refetch page 1
and append the fallback records; the resulting collection is the one
persisted with the completed status. A fetch failure anywhere surfaces as
the error. -/
def runScan (fetch : Nat → Except String Markup) (t : String → Outcome) (pages : Nat) :
    Except String (List DomainEntry) :=
  match scanPages fetch pages with
  | Except.error e => Except.error e
  | Except.ok entries =>
    let probed := probeAll t entries
    if probed.length = 0 then
      match fetch 1 with
      | Except.error e => Except.error e
      | Except.ok m => Except.ok (probed ++ fallbackEntries m.links)
    else Except.ok probed

/-- One persisted scan record: its domain collection and its status. -/
structure ScanRecord where
  domains : List DomainEntry
  status : String
deriving Repr, DecidableEq

/-- The response sent to the caller of the scan route. -/
inductive ScanResponse where
  | success (domains : List DomainEntry) (status : String) : ScanResponse
  | failure (error : String) : ScanResponse
deriving Repr, DecidableEq

/-- The scan route handler: on success the completed scan is persisted
and returned; on any error a failed scan with an empty collection is
persisted best-effort (skipped when that persistence itself fails) and
the original error message is surfaced to the caller. -/
def handleScanDomains (fetch : Nat → Except String Markup) (t : String → Outcome)
    (pages : Nat) (persistOk : Bool) (store : List ScanRecord) :
    ScanResponse × List ScanRecord :=
  match runScan fetch t pages with
  | Except.ok entries =>
    (ScanResponse.success entries "completed", store ++ [⟨entries, "completed"⟩])
  | Except.error e =>
    (ScanResponse.failure e, if persistOk then store ++ [⟨[], "failed"⟩] else store)

/-- Concrete registry row with one record: the scenario-A row. -/
def sampleRow : Row :=
  ⟨"trl",
   [⟨["example.org"], some "(12 hosts in use)", "example.org (12 hosts in use)"⟩,
    ⟨[], none, "public"⟩,
    ⟨["alice"], none, "alice"⟩,
    ⟨[], none, "3 years"⟩]⟩

/-- The record parsed from the scenario-A row. -/
def sampleEntry : DomainEntry :=
  ⟨"example.org", "public", "alice", "3 years", 12, "unchecked", none⟩

/-- Concrete fetch oracle: every page has an empty registry table and one
hyperlink whose text is a plain domain. -/
def cfetch : Nat → Except String Markup := fun _ => Except.ok ⟨[], ["example.com"]⟩

/-- Concrete transport on which every request fails at transport level. -/
def ctNet : String → Outcome := fun _ => Outcome.netError

/-- Concrete transport: the plain-scheme probe URL gets a 500 response
and every other URL a plain 200 response. -/
def t3 : String → Outcome := fun u =>
  if u = "http://a.com" then Outcome.response 500 none "" else Outcome.response 200 none "hello"

/-- Concrete transport: every request gets a plain 200 response. -/
def t10 : String → Outcome := fun _ => Outcome.response 200 none "welcome"

/-- Concrete fetch oracle: every page carries the scenario-A row. -/
def wfetch : Nat → Except String Markup := fun _ => Except.ok ⟨[sampleRow], []⟩

/-- Concrete fetch oracle failing on page 2 only. -/
def ffetch : Nat → Except String Markup := fun q =>
  if q = 2 then Except.error "network error" else Except.ok ⟨[sampleRow], []⟩

lemma parseRow_eq (row : Row) :
    parseRow row = if wellFormedRow row then some (extractRow row) else none := by
  unfold parseRow wellFormedRow
  by_cases h1 : 4 ≤ row.cells.length <;>
    by_cases h2 : (extractRow row).domain ≠ "" <;>
      by_cases h3 : (extractRow row).status ≠ "" <;>
        simp [h1, h2, h3]

lemma filterMap_if {α β : Type} (p : α → Bool) (f : α → β) (l : List α) :
    (l.filterMap fun a => if p a then some (f a) else none) = (l.filter p).map f := by
  induction l with
  | nil => rfl
  | cons a l ih => by_cases h : p a <;> simp [List.filterMap_cons, List.filter_cons, h, ih]

lemma classifyResponse_status (url : String) (st : Nat) (ru : Option String) (b : String) :
    (classifyResponse url st ru b).status = "working" ∨
    (classifyResponse url st ru b).status = "broken" := by
  unfold classifyResponse
  by_cases h1 : sigMatch (toLowerStr (ru.getD url)) (toLowerStr b) <;>
    by_cases h2 : 400 ≤ st ∧ st < 500 <;>
      simp [h1, h2]

lemma tryUrls_status (t : String → Outcome) :
    ∀ (urls : List String) (r : ProbeResult), tryUrls t urls = some r →
      r.status = "working" ∨ r.status = "broken" := by
  intro urls
  induction urls with
  | nil => intro r h; simp [tryUrls] at h
  | cons u rest ih =>
    intro r h
    cases hg : axiosProbeGet t u with
    | some v =>
      obtain ⟨st, ru, b⟩ := v
      simp [tryUrls, hg] at h
      rw [← h]
      exact classifyResponse_status u st ru b
    | none =>
      simp [tryUrls, hg] at h
      exact ih r h

lemma checkWebsiteStatus_status (t : String → Outcome) (d : String) :
    (checkWebsiteStatus t d).status = "working" ∨
    (checkWebsiteStatus t d).status = "broken" := by
  unfold checkWebsiteStatus
  cases h : tryUrls t ["http://" ++ d, "https://" ++ d] with
  | some r => simpa using tryUrls_status t _ r h
  | none => simp

lemma mem_entryDomains_mergeEntry {s : String} {acc : List DomainEntry} (e : DomainEntry)
    (h : s ∈ entryDomains acc) : s ∈ entryDomains (mergeEntry acc e) := by
  unfold mergeEntry
  split
  · exact h
  · simp only [entryDomains, List.map_append, List.mem_append]
    exact Or.inl h

lemma mem_entryDomains_foldl {s : String} (l : List DomainEntry) {acc : List DomainEntry}
    (h : s ∈ entryDomains acc) : s ∈ entryDomains (l.foldl mergeEntry acc) := by
  induction l generalizing acc with
  | nil => exact h
  | cons e l ih => exact ih (mem_entryDomains_mergeEntry e h)

lemma self_mem_mergeEntry (acc : List DomainEntry) (e : DomainEntry) :
    e.domain ∈ entryDomains (mergeEntry acc e) := by
  unfold mergeEntry
  split
  · rename_i h
    rw [List.any_eq_true] at h
    obtain ⟨x, hx, hbeq⟩ := h
    have hd : x.domain = e.domain := eq_of_beq hbeq
    simp only [entryDomains, List.mem_map]
    exact ⟨x, hx, hd⟩
  · simp [entryDomains]

lemma mem_of_mem_foldl_merge (l : List DomainEntry) (acc : List DomainEntry) :
    ∀ e ∈ l, e.domain ∈ entryDomains (l.foldl mergeEntry acc) := by
  induction l generalizing acc with
  | nil => intro e h; simp at h
  | cons a l ih =>
    intro e h
    rcases List.mem_cons.mp h with rfl | h
    · exact mem_entryDomains_foldl l (self_mem_mergeEntry acc e)
    · exact ih (mergeEntry acc a) e h

lemma mergeEntry_eq_of_mem {acc : List DomainEntry} {e : DomainEntry}
    (h : e.domain ∈ entryDomains acc) : mergeEntry acc e = acc := by
  unfold mergeEntry
  rw [if_pos]
  rw [List.any_eq_true]
  simp only [entryDomains, List.mem_map] at h
  obtain ⟨x, hx, hd⟩ := h
  exact ⟨x, hx, by simp [hd]⟩

lemma foldl_merge_absorb (l : List DomainEntry) (b : List DomainEntry)
    (h : ∀ e ∈ l, e.domain ∈ entryDomains b) : l.foldl mergeEntry b = b := by
  induction l with
  | nil => rfl
  | cons a l ih =>
    have ha := h a (List.mem_cons_self a l)
    rw [List.foldl_cons, mergeEntry_eq_of_mem ha]
    exact ih (fun e he => h e (List.mem_cons_of_mem a he))

lemma nodup_mergeEntry {acc : List DomainEntry} (e : DomainEntry)
    (h : (entryDomains acc).Nodup) : (entryDomains (mergeEntry acc e)).Nodup := by
  unfold mergeEntry
  split
  · exact h
  · rename_i hany
    have hne : e.domain ∉ entryDomains acc := by
      intro hmem
      apply hany
      rw [List.any_eq_true]
      simp only [entryDomains, List.mem_map] at hmem
      obtain ⟨x, hx, hd⟩ := hmem
      exact ⟨x, hx, by simp [hd]⟩
    simp only [entryDomains, List.map_append, List.map_cons, List.map_nil]
    simp only [List.nodup_append, List.nodup_singleton, true_and,
      List.disjoint_singleton]
    refine ⟨h, ?_⟩
    intro hcontra
    exact hne hcontra

lemma nodup_foldl_merge (l : List DomainEntry) {acc : List DomainEntry}
    (h : (entryDomains acc).Nodup) : (entryDomains (l.foldl mergeEntry acc)).Nodup := by
  induction l generalizing acc with
  | nil => exact h
  | cons a l ih => exact ih (nodup_mergeEntry a h)

lemma nodup_processPage {acc : List DomainEntry} (rows : List Row)
    (h : (entryDomains acc).Nodup) : (entryDomains (processPage acc rows)).Nodup :=
  nodup_foldl_merge _ h

lemma dedup_aux_nodup (l : List String) : ∀ acc : List String, acc.Nodup →
    (l.foldl (fun acc s => if acc.contains s then acc else acc ++ [s]) acc).Nodup := by
  induction l with
  | nil => intro acc h; exact h
  | cons a l ih =>
    intro acc h
    rw [List.foldl_cons]
    by_cases hc : acc.contains a
    · rw [if_pos hc]; exact ih acc h
    · rw [if_neg hc]
      apply ih
      have ha : a ∉ acc := by
        intro hm
        exact hc (List.elem_iff.mpr hm)
      simp [List.nodup_append, h, ha]

lemma jsSetDedup_nodup (l : List String) : (jsSetDedup l).Nodup :=
  dedup_aux_nodup l [] List.nodup_nil

lemma fallbackDomains_nodup (links : List String) : (fallbackDomains links).Nodup :=
  (jsSetDedup_nodup _).filter _

lemma fallbackFilter_props {d : String} (h : fallbackFilter d = true) :
    containsSub d "freedns" = false ∧ containsSub d "afraid" = false ∧
    hostPattern (stripWww d) = true := by
  unfold fallbackFilter at h
  split at h
  · exact absurd h (by simp)
  · split at h
    · exact absurd h (by simp)
    · rename_i h1 h2
      simp only [Bool.or_eq_true, not_or] at h2
      exact ⟨Bool.eq_false_iff.mpr h2.1, Bool.eq_false_iff.mpr h2.2, h⟩

lemma classify_url_token (url : String) (st : Nat) (ru : Option String) (b : String)
    (h : containsSub (toLowerStr (ru.getD url)) "blocked" = true ∨
         containsSub (toLowerStr (ru.getD url)) "filter" = true) :
    classifyResponse url st ru b =
      ⟨"broken", some "Blocked by security filter (Securly/similar)"⟩ := by
  have hsig : sigMatch (toLowerStr (ru.getD url)) (toLowerStr b) = true := by
    rcases h with h | h <;>
      simp [sigMatch, urlSignatures, List.any_cons, List.any_nil, h]
  simp [classifyResponse, hsig]

/-- Claim C2: for every attempted URL that received a response, the
classification is decided in this order: a filter-signature match in the
lower-cased effective final URL or body yields broken with the
filter-block error regardless of the status code; otherwise a status in
the client-error range 400 to 499 yields broken with the HTTP-status
error; otherwise the result is working. -/
theorem C2_classification_order (url : String) (st : Nat) (ru : Option String) (b : String) :
    (sigMatch (toLowerStr (ru.getD url)) (toLowerStr b) = true →
      classifyResponse url st ru b =
        ⟨"broken", some "Blocked by security filter (Securly/similar)"⟩)
  ∧ (sigMatch (toLowerStr (ru.getD url)) (toLowerStr b) = false → 400 ≤ st → st < 500 →
      classifyResponse url st ru b = ⟨"broken", some ("HTTP " ++ Nat.repr st)⟩)
  ∧ (sigMatch (toLowerStr (ru.getD url)) (toLowerStr b) = false → ¬(400 ≤ st ∧ st < 500) →
      classifyResponse url st ru b = ⟨"working", none⟩) := by
  refine ⟨fun h => ?_, fun h h1 h2 => ?_, fun h h2 => ?_⟩
  · simp [classifyResponse, h]
  · simp [classifyResponse, h, h1, h2]
  · simp [classifyResponse, h, h2]

/-- Claim C2 witness: a 200 response whose body carries a signature
phrase is classified broken with the filter-block error. -/
theorem C2_classification_order_witness :
    classifyResponse "http://x.com" 200 none "this site has been blocked" =
      ⟨"broken", some "Blocked by security filter (Securly/similar)"⟩ :=
  (C2_classification_order "http://x.com" 200 none "this site has been blocked").1 (by decide)

/-- Claim C3 counterexample: on this transport, the plain-scheme attempt
receives a status-level response, namely a 500, yet the secure-scheme URL
is still attempted, because the status validator rejects statuses of 500
and above and so the attempt is treated as thrown. -/
theorem C3_counterexample :
    t3 "http://a.com" = Outcome.response 500 none "" ∧
    attemptedUrls t3 ["http://a.com", "https://a.com"] =
      ["http://a.com", "https://a.com"] :=
  ⟨rfl, rfl⟩

/-- Claim C3 as amended: the secure-scheme URL is attempted exactly when
the plain-scheme attempt throws, and the attempt throws exactly when the
transport fails or the response status is at least 500; a response with
status below 500 is accepted and never causes a cross-scheme retry. -/
theorem C3_attempts_amended (t : String → Outcome) (d : String) :
    (attemptedUrls t ["http://" ++ d, "https://" ++ d] =
      if axiosProbeGet t ("http://" ++ d) = none
      then ["http://" ++ d, "https://" ++ d]
      else ["http://" ++ d])
  ∧ (axiosProbeGet t ("http://" ++ d) = none ↔
      t ("http://" ++ d) = Outcome.netError ∨
      ∃ st ru b, t ("http://" ++ d) = Outcome.response st ru b ∧ 500 ≤ st) := by
  constructor
  · cases h : axiosProbeGet t ("http://" ++ d) with
    | none =>
      simp only [attemptedUrls, h, if_pos]
      cases h2 : axiosProbeGet t ("https://" ++ d) <;> simp [attemptedUrls, h2]
    | some v => simp [attemptedUrls, h]
  · constructor
    · intro h
      unfold axiosProbeGet at h
      cases ht : t ("http://" ++ d) with
      | netError => exact Or.inl rfl
      | response st ru b =>
        rw [ht] at h
        by_cases hlt : st < 500
        · simp [hlt] at h
        · exact Or.inr ⟨st, ru, b, rfl, by omega⟩
    · intro h
      rcases h with h | ⟨st, ru, b, ht, hge⟩
      · simp [axiosProbeGet, h]
      · have : ¬ st < 500 := by omega
        simp [axiosProbeGet, ht, this]

/-- Claim C4: the prober is total, returning a classification that is
working or broken on every input; when both the plain and the secure
attempt throw it returns broken with the connection-failed error; and an
unexpected top-level exception yields broken with the exception message,
defaulting to the unknown-error text. -/
theorem C4_prober_total (t : String → Outcome) (d m : String) :
    ((checkWebsiteStatus t d).status = "working" ∨
     (checkWebsiteStatus t d).status = "broken")
  ∧ (axiosProbeGet t ("http://" ++ d) = none → axiosProbeGet t ("https://" ++ d) = none →
      checkWebsiteStatus t d = ⟨"broken", some "Connection failed"⟩)
  ∧ checkWebsiteStatusCatch m = ⟨"broken", some (if m = "" then "Unknown error" else m)⟩ := by
  refine ⟨checkWebsiteStatus_status t d, fun h1 h2 => ?_, rfl⟩
  simp [checkWebsiteStatus, tryUrls, h1, h2]

/-- Claim C4 witness: on a transport where every request fails, the
prober returns broken with the connection-failed error. -/
theorem C4_prober_total_witness :
    checkWebsiteStatus ctNet "a.com" = ⟨"broken", some "Connection failed"⟩ :=
  (C4_prober_total ctNet "a.com" "").2.1 rfl rfl

/-- Claim C9: the host count of every parsed record equals the integer
captured by the host-count pattern from the span text of the first cell,
and equals 0 when no span is present or the pattern does not match. -/
theorem C9_hostcount (row : Row) (e : DomainEntry) (h : parseRow row = some e) :
    e.hosts =
      match (row.cells.getD 0 defaultCell).spanText with
      | some t => (hostMatch t).getD 0
      | none => 0 := by
  rw [parseRow_eq] at h
  by_cases hw : wellFormedRow row
  · rw [if_pos hw] at h
    have he := Option.some.inj h
    rw [← he]
    rfl
  · rw [if_neg hw] at h
    exact absurd h (by simp)

/-- Claim C9 witness: the scenario-A row with span text carrying 12 hosts
in use parses to a record with host count 12. -/
theorem C9_hostcount_witness :
    sampleEntry.hosts =
      match (sampleRow.cells.getD 0 defaultCell).spanText with
      | some t => (hostMatch t).getD 0
      | none => 0 :=
  C9_hostcount sampleRow sampleEntry (by decide)

/-- Claim C10: a bare blocked or filter token anywhere in the lower-cased
effective final URL forces the broken filter-block classification
regardless of status code and body, both at the classification step and
through the whole prober when the first attempt receives such a
response. -/
theorem C10_bare_tokens :
    (∀ (url : String) (st : Nat) (ru : Option String) (b : String),
      (containsSub (toLowerStr (ru.getD url)) "blocked" = true ∨
       containsSub (toLowerStr (ru.getD url)) "filter" = true) →
      classifyResponse url st ru b =
        ⟨"broken", some "Blocked by security filter (Securly/similar)"⟩)
  ∧ (∀ (t : String → Outcome) (d : String) (st : Nat) (ru : Option String) (b : String),
      t ("http://" ++ d) = Outcome.response st ru b → st < 500 →
      (containsSub (toLowerStr (ru.getD ("http://" ++ d))) "blocked" = true ∨
       containsSub (toLowerStr (ru.getD ("http://" ++ d))) "filter" = true) →
      checkWebsiteStatus t d =
        ⟨"broken", some "Blocked by security filter (Securly/similar)"⟩) := by
  constructor
  · exact classify_url_token
  · intro t d st ru b ht hlt h
    have h1 : axiosProbeGet t ("http://" ++ d) = some (st, ru, b) := by
      simp [axiosProbeGet, ht, hlt]
    simp [checkWebsiteStatus, tryUrls, h1]
    exact classify_url_token _ st ru b h

/-- Claim C10 witness: probing a domain whose name contains the token
blocked, against a transport answering a plain 200 with an innocuous
body, yields the broken filter-block classification. -/
theorem C10_bare_tokens_witness :
    checkWebsiteStatus t10 "unblocked-games.com" =
      ⟨"broken", some "Blocked by security filter (Securly/similar)"⟩ :=
  C10_bare_tokens.2 t10 "unblocked-games.com" 200 none "welcome" rfl (by decide)
    (Or.inl (by decide))

/-- Claim C7: parsing equals extraction over exactly the well-formed rows
of the known classes, in row order; rows with an empty trimmed domain or
status, and rows with fewer than 4 cells, are skipped without affecting
the records of other rows. -/
theorem C7_parse_wellformed (rows : List Row) :
    parsePage rows = ((selectRows rows).filter wellFormedRow).map extractRow ∧
    (parsePage rows).length = ((selectRows rows).filter wellFormedRow).length := by
  have h : parsePage rows = ((selectRows rows).filter wellFormedRow).map extractRow := by
    unfold parsePage
    have hfun : parseRow = fun r => if wellFormedRow r then some (extractRow r) else none :=
      funext parseRow_eq
    rw [hfun, filterMap_if]
  exact ⟨h, by rw [h, List.length_map]⟩

/-- Claim C6: the aggregated collection keeps domain names unique, with
the first occurrence winning, and merging the records of the same page a
second time changes nothing. -/
theorem C6_dedup_invariant :
    (∀ pagesRows : List (List Row),
      (entryDomains (pagesRows.foldl processPage [])).Nodup)
  ∧ (∀ (acc : List DomainEntry) (rows : List Row),
      processPage (processPage acc rows) rows = processPage acc rows) := by
  constructor
  · intro pagesRows
    have haux : ∀ (ps : List (List Row)) (acc : List DomainEntry),
        (entryDomains acc).Nodup → (entryDomains (ps.foldl processPage acc)).Nodup := by
      intro ps
      induction ps with
      | nil => intro acc h; exact h
      | cons p ps ih => intro acc h; exact ih _ (nodup_processPage p h)
    exact haux pagesRows [] (by simp [entryDomains])
  · intro acc rows
    unfold processPage
    apply foldl_merge_absorb
    intro e he
    exact mem_of_mem_foldl_merge _ _ e he

/-- Claim C8 counterexample: the fallback emits the candidate verbatim;
for a link text with a leading www. prefix the prefix survives into the
emitted record, because the stripping happens only on a local copy used
for the hostname re-test. -/
theorem C8_counterexample :
    fallbackEntries ["www.example.com"] =
      [⟨"www.example.com", "unknown", "unknown", "unknown", 0, "unchecked", none⟩] := by
  decide

/-- Claim C8 as amended: every record emitted by the fallback carries the
candidate domain verbatim, such that the candidate with a leading www.
prefix stripped matches the hostname pattern; it contains neither
registry substring, appears at most once, and carries the sentinel
unknown for registration status, owner and age, with host count 0 and
reachability unchecked. -/
theorem C8_fallback_amended (links : List String) :
    ((fallbackEntries links).all (fun e =>
        !(containsSub e.domain "freedns") && !(containsSub e.domain "afraid") &&
        hostPattern (stripWww e.domain) &&
        (e.status == "unknown") && (e.owner == "unknown") && (e.age == "unknown") &&
        (e.hosts == 0) && (e.websiteStatus == "unchecked")) = true)
  ∧ (entryDomains (fallbackEntries links)).Nodup := by
  constructor
  · rw [List.all_eq_true]
    intro e he
    unfold fallbackEntries at he
    rw [List.mem_map] at he
    obtain ⟨d, hd, hde⟩ := he
    rw [← hde]
    unfold fallbackDomains at hd
    rw [List.mem_filter] at hd
    obtain ⟨-, hf⟩ := hd
    obtain ⟨h1, h2, h3⟩ := fallbackFilter_props hf
    simp [mkUnknownEntry, h1, h2, h3]
  · unfold fallbackEntries entryDomains
    rw [List.map_map]
    have hid : ((fun e : DomainEntry => e.domain) ∘ mkUnknownEntry) = id := by
      funext d; rfl
    rw [hid, List.map_id]
    exact fallbackDomains_nodup links

lemma probeAll_not_unchecked (t : String → Outcome) (l : List DomainEntry) :
    (probeAll t l).all (fun e => !(e.websiteStatus == "unchecked")) = true := by
  rw [List.all_eq_true]
  intro e he
  unfold probeAll at he
  rw [List.mem_map] at he
  obtain ⟨x, hx, hxe⟩ := he
  rw [← hxe]
  rcases checkWebsiteStatus_status t x.domain with h | h <;> simp [h]

/-- Claim C1 counterexample: a scan in which the registry table is empty
on every page but page 1 carries one qualifying hyperlink persists a
completed scan record whose single domain record still has reachability
unchecked, because the fallback runs after the probe fan-out. -/
theorem C1_counterexample :
    handleScanDomains cfetch ctNet 1 true [] =
      (ScanResponse.success
        [⟨"example.com", "unknown", "unknown", "unknown", 0, "unchecked", none⟩]
        "completed",
       [⟨[⟨"example.com", "unknown", "unknown", "unknown", 0, "unchecked", none⟩],
         "completed"⟩]) :=
  rfl

/-- Claim C1 as amended: every record accumulated from the registry
tables is probed, so when the table extraction yields at least one record
the persisted completed collection is exactly the probed records and none
of them retains reachability unchecked; records appended by the fallback,
which runs only after probing on an empty collection, are created with
reachability unchecked. -/
theorem C1_probe_amended :
    (∀ (fetch : Nat → Except String Markup) (t : String → Outcome) (pages : Nat)
       (l : List DomainEntry),
      scanPages fetch pages = Except.ok l → l ≠ [] →
      (runScan fetch t pages = Except.ok (probeAll t l) ∧
       (probeAll t l).all (fun e => !(e.websiteStatus == "unchecked")) = true))
  ∧ (∀ links : List String,
      (fallbackEntries links).all (fun e => e.websiteStatus == "unchecked") = true) := by
  constructor
  · intro fetch t pages l h hne
    refine ⟨?_, probeAll_not_unchecked t l⟩
    have hlen : ¬ (probeAll t l).length = 0 := by
      unfold probeAll
      rw [List.length_map]
      exact fun hh => hne (List.length_eq_zero.mp hh)
    simp [runScan, h, hlen]
  · intro links
    rw [List.all_eq_true]
    intro e he
    unfold fallbackEntries at he
    rw [List.mem_map] at he
    obtain ⟨d, hd, hde⟩ := he
    rw [← hde]
    rfl

/-- Claim C1 amended witness: one page whose table carries the scenario-A
row, against a transport failing every request, completes with exactly
the probed record and no record left unchecked. -/
theorem C1_probe_amended_witness :
    runScan wfetch ctNet 1 = Except.ok (probeAll ctNet [sampleEntry]) ∧
    (probeAll ctNet [sampleEntry]).all (fun e => !(e.websiteStatus == "unchecked")) = true :=
  C1_probe_amended.1 wfetch ctNet 1 [sampleEntry] rfl (by decide)

lemma scanLoop_error (fetch : Nat → Except String Markup) (e : String) :
    ∀ (n page : Nat) (acc : List DomainEntry) (p : Nat),
      page ≤ p → p < page + n → fetch p = Except.error e →
      (∀ q, page ≤ q → q < p → ∃ m, fetch q = Except.ok m) →
      scanLoop fetch acc page n = Except.error e := by
  intro n
  induction n with
  | zero => intro page acc p h1 h2 _ _; omega
  | succ k ih =>
    intro page acc p h1 h2 hf hq
    by_cases hpp : page = p
    · subst hpp
      simp [scanLoop, hf]
    · have hlt : page < p := Nat.lt_of_le_of_ne h1 hpp
      obtain ⟨m, hm⟩ := hq page (Nat.le_refl page) hlt
      simp only [scanLoop, hm]
      exact ih (page + 1) _ p hlt (by omega) hf (fun q hq1 hq2 => hq q (by omega) hq2)

/-- Claim C5: when the fetch of some page fails while every earlier page
fetched fine, the handler responds with the original error message and
persists, when that secondary persistence succeeds, a failed scan record
with an empty domain collection; when it fails the store is untouched and
the response is unchanged; records of previously scanned pages are
discarded either way. -/
theorem C5_failure_path (fetch : Nat → Except String Markup) (t : String → Outcome)
    (pages p : Nat) (e : String) (store : List ScanRecord) (persistOk : Bool)
    (hp1 : 1 ≤ p) (hp2 : p ≤ pages) (hf : fetch p = Except.error e)
    (hq : ∀ q, 1 ≤ q → q < p → ∃ m, fetch q = Except.ok m) :
    handleScanDomains fetch t pages persistOk store =
      (ScanResponse.failure e,
       if persistOk then store ++ [⟨[], "failed"⟩] else store) := by
  have hscan : scanPages fetch pages = Except.error e :=
    scanLoop_error fetch e pages 1 [] p hp1 (by omega) hf hq
  have hrun : runScan fetch t pages = Except.error e := by
    simp [runScan, hscan]
  simp [handleScanDomains, hrun]

/-- Claim C5 witness: scanning 3 pages where the fetch of page 2 throws a
network error responds with that error and persists one failed scan
record with an empty collection. -/
theorem C5_failure_path_witness :
    handleScanDomains ffetch ctNet 3 true [] =
      (ScanResponse.failure "network error",
       if true then ([] : List ScanRecord) ++ [⟨[], "failed"⟩] else []) :=
  C5_failure_path ffetch ctNet 3 2 "network error" [] true (by decide) (by decide) rfl
    (fun q _ h2 => ⟨⟨[sampleRow], []⟩, by
      have hq1 : q = 1 := by omega
      subst hq1
      rfl⟩)

end DScan
